import Mathlib

/-!
Verification of the nano-banana interior image editor.

Shallow embedding of the two source modules:

* `MaskingCanvas` (components/MaskingCanvas.tsx): the dual-layer drawing
  surface, modelled as a step machine over an explicit canvas state.  The
  pixel buffers of the two canvases are modelled by the lists of drawing
  operations they currently hold (a stroke list for the drawing canvas, an
  image-draw list for the image canvas); assigning `canvas.width`/`height`
  resets a buffer, which the model expresses by replacing the list.
* `App` (App.tsx): the application state and its event handlers.  React
  `useState` setters become functional record updates; the `async`
  `handleGenerate` is split at its single `await` point into a synchronous
  start (the input guard plus entering the Loading state) and a finish that
  consumes the settled outcome, with `Except` modelling `throw`.
* `geminiService` (services/geminiService.ts): `generateInpaintedImage`,
  parametrised by the external `ai.models.generateContent` endpoint as an
  oracle, and returning alongside its result the list of requests it issued
  to the oracle.
* Browser primitives the code calls (`btoa`/`atob` as used through
  `FileReader.readAsDataURL` and `atob`, `canvas.toDataURL`) are defined
  here following their platform specifications (WHATWG forgiving-base64),
  since they are not part of the repository.

Machine numbers (JS `number`) are modelled by `ℚ` where exact arithmetic is
what the claims are about (layout geometry, pointer coordinates), and by
`Nat` for byte values and sizes.
-/

/-- A browser `File`: a name, a declared MIME type, and its content bytes
(each byte a `Nat` below 256). -/
structure JSFile where
  name : String
  type : String
  bytes : List Nat
deriving DecidableEq, Repr

/-- Size of a `File` in bytes (the `file.size` accessor). -/
def JSFile.size (f : JSFile) : Nat := f.bytes.length

/-- Platform primitive `String.prototype.trim`: strip leading and trailing
whitespace. -/
def trimStr (s : String) : String :=
  String.mk (((s.data.dropWhile Char.isWhitespace).reverse.dropWhile Char.isWhitespace).reverse)

namespace MaskingCanvas

/-- A 2-D point in exact client/canvas coordinates. -/
structure Pt where
  x : ℚ
  y : ℚ
deriving DecidableEq, Repr

/-- One stroke operation as issued by `draw`: a straight line segment from
`p1` (the last recorded point) to `p2` (the current point), together with the
2D-context configuration set immediately before the `stroke()` call. -/
structure Segment where
  p1 : Pt
  p2 : Pt
  strokeStyle : String
  lineWidth : ℚ
  lineCap : String
  lineJoin : String
deriving DecidableEq, Repr

/-- One image-draw operation on the image canvas: `drawImage(image, 0, 0,
newWidth, newHeight)`. -/
structure ImageDraw where
  imageUrl : String
  w : ℚ
  h : ℚ
deriving DecidableEq, Repr

/-- The state of the `MaskingCanvas` component: the `isDrawing` flag, the
`lastPointRef`, the contents of the two pixel buffers (as the drawing
operations they hold), the `onMaskChange` payloads reported so far, and the
current display dimensions. -/
structure CanvasState where
  isDrawing : Bool
  lastPoint : Option Pt
  strokes : List Segment
  imageOps : List ImageDraw
  reported : List String
  width : ℚ
  height : ℚ
deriving DecidableEq, Repr

/-- Platform primitive `canvas.toDataURL()`, modelled as an injective PNG
data-URL serialization of the drawing-canvas buffer content. -/
def toDataURL (buf : List Segment) : String :=
  "data:image/png;base64," ++ reprStr buf

/-- Display size computed by `drawImage` from the loaded image's intrinsic
size and the container's offset size: start from the container width, and if
the induced height overflows a positive container height, clamp to it,
preserving the aspect ratio in both cases. -/
def fitDims (imgW imgH cW cH : ℚ) : ℚ × ℚ :=
  let aspectRatio := imgW / imgH
  let newWidth := cW
  let newHeight := cW / aspectRatio
  if newHeight > cH ∧ cH > 0 then (cH * aspectRatio, cH) else (newWidth, newHeight)

/-- The bounding client rectangle of the drawing canvas
(`getBoundingClientRect`). -/
structure RectT where
  left : ℚ
  top : ℚ
  width : ℚ
  height : ℚ
deriving DecidableEq, Repr

/-- Pointer coordinate mapping of `getCoordinates`: client coordinates minus
the canvas bounding rectangle's origin. -/
def getCoordinates (rect : RectT) (clientX clientY : ℚ) : Pt :=
  ⟨clientX - rect.left, clientY - rect.top⟩

/-- Handler `startDrawing` (mousedown): record the drawing flag and the
starting point.  It performs no drawing operation. -/
def startDrawing (s : CanvasState) (p : Pt) : CanvasState :=
  { s with isDrawing := true, lastPoint := some p }

/-- Handler `draw` (mousemove): when drawing and a last point is recorded,
stroke one straight line segment from it to the current point on the drawing
canvas, with the configured brush size and color and round cap/join, and
advance the last point; otherwise do nothing. -/
def draw (brushSize : ℚ) (brushColor : String) (s : CanvasState) (p : Pt) : CanvasState :=
  if s.isDrawing = false then s
  else
    match s.lastPoint with
    | none => s
    | some lp =>
      { s with
        strokes := s.strokes ++ [⟨lp, p, brushColor, brushSize, "round", "round"⟩],
        lastPoint := some p }

/-- Handler `stopDrawing` (mouseup / mouseleave): when drawing, clear the
flag and the last point and report the serialized drawing-canvas buffer via
`onMaskChange`; otherwise do nothing. -/
def stopDrawing (s : CanvasState) : CanvasState :=
  if s.isDrawing = false then s
  else
    { s with isDrawing := false, lastPoint := none,
             reported := s.reported ++ [toDataURL s.strokes] }

/-- Effect `clearCanvas`, run when `clearCounter` increments: `clearRect`
over the full drawing canvas (emptying its buffer) and report the empty
string via `onMaskChange`. -/
def clearCanvas (s : CanvasState) : CanvasState :=
  { s with strokes := [], reported := s.reported ++ [""] }

/-- Effect `drawImage`, run on image load and on every window resize: compute
the fitted display size, assign it to both canvases' `width`/`height` (which
resets both pixel buffers), and draw the base image onto the image canvas
only. -/
def drawImage (imageUrl : String) (imgW imgH cW cH : ℚ) (s : CanvasState) : CanvasState :=
  let d := fitDims imgW imgH cW cH
  { s with width := d.1, height := d.2,
           strokes := [],
           imageOps := [⟨imageUrl, d.1, d.2⟩] }

/-- Events the component reacts to: the four pointer handlers wired on the
drawing canvas, the clear effect, and the layout effect. -/
inductive Ev where
  | mouseDown (p : Pt)
  | mouseMove (p : Pt)
  | mouseUp
  | mouseLeave
  | clear
  | layout (imageUrl : String) (imgW imgH cW cH : ℚ)
deriving DecidableEq

/-- One step of the component under brush props `brushSize`/`brushColor`. -/
def step (brushSize : ℚ) (brushColor : String) (s : CanvasState) : Ev → CanvasState
  | .mouseDown p => startDrawing s p
  | .mouseMove p => draw brushSize brushColor s p
  | .mouseUp => stopDrawing s
  | .mouseLeave => stopDrawing s
  | .clear => clearCanvas s
  | .layout u iw ih cw ch => drawImage u iw ih cw ch s

/-- A concrete canvas state holding one stroke, with no pointer button held. -/
def sIdleStroke : CanvasState :=
  { isDrawing := false
    lastPoint := none
    strokes := [⟨⟨1, 1⟩, ⟨2, 2⟩, "#FFFFFF", 40, "round", "round"⟩]
    imageOps := []
    reported := []
    width := 100
    height := 100 }

/-- A concrete canvas state mid-stroke (pointer button held). -/
def sHeldStroke : CanvasState :=
  { isDrawing := true
    lastPoint := some ⟨2, 2⟩
    strokes := [⟨⟨1, 1⟩, ⟨2, 2⟩, "#FFFFFF", 40, "round", "round"⟩]
    imageOps := []
    reported := []
    width := 100
    height := 100 }

end MaskingCanvas

namespace GeminiService

/-- Inline binary data of a part (`inlineData`): a MIME type and a base64
payload string.  A missing/undefined `data` and an empty one are both falsy
in the source's truthiness test, so the empty string models both. -/
structure InlineData where
  mimeType : String
  data : String
deriving DecidableEq, Repr

/-- A content part: optional text and optional inline data. -/
structure Part where
  text : Option String
  inlineData : Option InlineData
deriving DecidableEq, Repr

/-- A candidate's content: its list of parts. -/
structure Content where
  parts : List Part
deriving DecidableEq, Repr

/-- One response candidate with its optional content. -/
structure Candidate where
  content : Option Content
deriving DecidableEq, Repr

/-- A `GenerateContentResponse`: its candidates (a missing `candidates`
field behaves like the empty list, since only `candidates?.[0]` is read) and
the SDK's `text` accessor, modelled as an optional field. -/
structure Response where
  candidates : List Candidate
  text : Option String
deriving DecidableEq, Repr

/-- Response modalities requested in the call configuration. -/
inductive Modality where
  | IMAGE
  | TEXT
deriving DecidableEq, Repr

/-- The request passed to `ai.models.generateContent`, with the nested
`contents.parts` and `config.responseModalities` flattened into fields. -/
structure GenRequest where
  model : String
  parts : List Part
  responseModalities : List Modality
deriving DecidableEq, Repr

/-- The request literal built by `generateInpaintedImage`: the prompt text
part, then the original image, then the mask (always declared `image/png`),
with `IMAGE` as the only response modality. -/
def mkRequest (originalImageBase64 originalMimeType maskImageBase64 prompt : String) :
    GenRequest :=
  { model := "gemini-2.5-flash-image"
    parts := [
      { text := some prompt, inlineData := none },
      { text := none, inlineData := some ⟨originalMimeType, originalImageBase64⟩ },
      { text := none, inlineData := some ⟨"image/png", maskImageBase64⟩ } ]
    responseModalities := [Modality.IMAGE] }

/-- The part lookup `response.candidates?.[0]?.content?.parts?.find(part =>
!!part.inlineData)`: the first part of the first candidate's content that
carries `inlineData`. -/
def firstImagePart (response : Response) : Option Part :=
  match response.candidates.head? with
  | none => none
  | some c =>
    match c.content with
    | none => none
    | some content => content.parts.find? (fun part => part.inlineData.isSome)

/-- The error thrown when no usable image data is found: the model's trimmed
text response when it is non-empty (a possibly blocked response), the fixed
message otherwise. -/
def noImageError (response : Response) : Except String String :=
  match response.text.map trimStr with
  | some t =>
    if t = "" then .error "Image generation failed: No image data received from the API."
    else .error ("Image generation failed. Model response: " ++ t)
  | none => .error "Image generation failed: No image data received from the API."

/-- Response processing of `generateInpaintedImage`: return the found part's
inline data when it is truthy (present and non-empty), otherwise raise
`noImageError`. -/
def processResponse (response : Response) : Except String String :=
  match firstImagePart response with
  | some part =>
    match part.inlineData with
    | some d => if d.data = "" then noImageError response else .ok d.data
    | none => noImageError response
  | none => noImageError response

/-- Function `generateInpaintedImage`, parametrised by the external endpoint
`api` (`ai.models.generateContent`, whose failures are thrown values,
modelled by `Except`).  The second component is the list of requests issued
to the endpoint, in order.  The source's `catch` re-throws its error
unchanged, which the `Except` plumbing models by construction. -/
def generateInpaintedImage
    (originalImageBase64 originalMimeType maskImageBase64 prompt : String)
    (api : GenRequest → Except String Response) :
    Except String String × List GenRequest :=
  let req := mkRequest originalImageBase64 originalMimeType maskImageBase64 prompt
  match api req with
  | .error e => (.error e, [req])
  | .ok response => (processResponse response, [req])

/-- A concrete response whose first (and only) part carries `inlineData`
with an empty `data` payload, and no text. -/
def emptyDataResponse : Response :=
  { candidates := [⟨some ⟨[{ text := none, inlineData := some ⟨"image/png", ""⟩ }]⟩⟩]
    text := none }

/-- A concrete response carrying non-empty inline image data. -/
def goodResponse : Response :=
  { candidates := [⟨some ⟨[{ text := none, inlineData := some ⟨"image/png", "IMGDATA"⟩ }]⟩⟩]
    text := none }

end GeminiService

namespace Web

/-- The standard base64 alphabet, in index order. -/
def b64Alphabet : List Char :=
  ['A', 'B', 'C', 'D', 'E', 'F', 'G', 'H', 'I', 'J', 'K', 'L', 'M',
   'N', 'O', 'P', 'Q', 'R', 'S', 'T', 'U', 'V', 'W', 'X', 'Y', 'Z',
   'a', 'b', 'c', 'd', 'e', 'f', 'g', 'h', 'i', 'j', 'k', 'l', 'm',
   'n', 'o', 'p', 'q', 'r', 's', 't', 'u', 'v', 'w', 'x', 'y', 'z',
   '0', '1', '2', '3', '4', '5', '6', '7', '8', '9', '+', '/']

/-- The character encoding a 6-bit group. -/
def encChar (n : Nat) : Char := b64Alphabet.getD n '?'

/-- The 6-bit group encoded by a character, when it is in the alphabet. -/
def decChar (c : Char) : Option Nat := b64Alphabet.indexOf? c

/-- ASCII whitespace per the WHATWG Infra standard, which forgiving-base64
decode strips first. -/
def isB64Ws (c : Char) : Bool :=
  c == '\t' || c == '\n' || c == '\x0c' || c == '\r' || c == ' '

/-- Platform primitive `btoa` on a byte list: standard base64 encoding,
three bytes to four characters, with `=` padding. -/
def btoaChunks : List Nat → List Char
  | [] => []
  | [a] => [encChar (a / 4), encChar (a % 4 * 16), '=', '=']
  | [a, b] => [encChar (a / 4), encChar (a % 4 * 16 + b / 16), encChar (b % 16 * 4), '=']
  | a :: b :: c :: rest =>
    encChar (a / 4) :: encChar (a % 4 * 16 + b / 16) :: encChar (b % 16 * 4 + c / 64) ::
      encChar (c % 64) :: btoaChunks rest

/-- The encoding of `btoaChunks` with the `=` padding omitted. -/
def btoaRawChunks : List Nat → List Char
  | [] => []
  | [a] => [encChar (a / 4), encChar (a % 4 * 16)]
  | [a, b] => [encChar (a / 4), encChar (a % 4 * 16 + b / 16), encChar (b % 16 * 4)]
  | a :: b :: c :: rest =>
    encChar (a / 4) :: encChar (a % 4 * 16 + b / 16) :: encChar (b % 16 * 4 + c / 64) ::
      encChar (c % 64) :: btoaRawChunks rest

/-- The padding `btoaChunks` appends after `btoaRawChunks`, a function of the
byte count modulo 3. -/
def padOf (bs : List Nat) : List Char :=
  match bs.length % 3 with
  | 0 => []
  | 1 => ['=', '=']
  | _ => ['=']

/-- Core of forgiving-base64 decode on a padding-free character list:
groups of four characters yield three bytes; a trailing group of two or
three characters yields one or two bytes, discarding leftover bits; a
trailing single character, or any character outside the alphabet, fails. -/
def atobCore : List Char → Option (List Nat)
  | [] => some []
  | [_] => none
  | [a, b] => do
    let x ← decChar a
    let y ← decChar b
    some [x * 4 + y / 16]
  | [a, b, c] => do
    let x ← decChar a
    let y ← decChar b
    let z ← decChar c
    some [x * 4 + y / 16, y % 16 * 16 + z / 4]
  | a :: b :: c :: d :: rest => do
    let x ← decChar a
    let y ← decChar b
    let z ← decChar c
    let w ← decChar d
    let tail ← atobCore rest
    some ((x * 4 + y / 16) :: (y % 16 * 16 + z / 4) :: (z % 4 * 64 + w) :: tail)

/-- Removal of one or two trailing `=` characters (and of nothing else). -/
def dropPad (l : List Char) : List Char :=
  match l.reverse with
  | a :: b :: rest =>
    if a = '=' then (if b = '=' then rest.reverse else (b :: rest).reverse) else l
  | [a] => if a = '=' then [] else l
  | [] => l

/-- Platform primitive `atob` (WHATWG forgiving-base64 decode): strip ASCII
whitespace, remove up to two trailing `=` when the length is a multiple of
four, then decode, failing on any remaining non-alphabet character or on a
length congruent to one modulo four. -/
def atobChars (s : List Char) : Option (List Nat) :=
  let l := s.filter (fun c => !isB64Ws c)
  atobCore (if l.length % 4 = 0 then dropPad l else l)

/-- Splitting a character list at every occurrence of `c` (the semantics of
`String.prototype.split` with a single-character separator). -/
def splitCh (c : Char) : List Char → List (List Char)
  | [] => [[]]
  | a :: rest =>
    if a = c then [] :: splitCh c rest
    else
      match splitCh c rest with
      | [] => [[a]]
      | g :: gs => (a :: g) :: gs

/-- The characters strictly before the first occurrence of `c`, when `c`
occurs. -/
def takeUntil (c : Char) : List Char → Option (List Char)
  | [] => none
  | a :: rest => if a = c then some [] else (takeUntil c rest).map (a :: ·)

/-- The capture group of the first match of the regular expression
/:(.*?);/ : the characters between the first colon and the first semicolon
after it.  A later colon cannot start an earlier-completing match, since any
semicolon after it also lies after the first colon. -/
def extractMime : List Char → Option (List Char)
  | [] => none
  | a :: rest => if a = ':' then takeUntil ';' rest else extractMime rest

end Web

namespace App

/-- The application status enumeration (types.ts). -/
inductive Status where
  | Idle
  | Masking
  | Loading
  | Done
  | Error
deriving DecidableEq, Repr

/-- The application state held by the `useState` hooks of `App`. -/
structure AppState where
  status : Status
  originalImage : Option JSFile
  maskImage : Option String
  prompt : String
  generatedImage : Option String
  error : Option String
  brushSize : Nat
  clearCanvasCounter : Nat
deriving DecidableEq, Repr

/-- Truthiness of a nullable string (JavaScript: `null` and the empty
string are falsy). -/
def strTruthy : Option String → Bool
  | none => false
  | some s => !(s == "")

/-- Handler `handleImageUpload` on the selected file (if any): reject files
over 4 MB with an error message, otherwise store the image, enter Masking,
and reset error, generated image and mask. -/
def handleImageUpload (s : AppState) (file : Option JSFile) : AppState :=
  match file with
  | none => s
  | some f =>
    if f.size > 4 * 1024 * 1024 then
      { s with error := some "Image size should be less than 4MB." }
    else
      { s with originalImage := some f
               status := Status.Masking
               error := none
               generatedImage := none
               maskImage := none }

/-- The synchronous prefix of `handleGenerate`, up to its `await`: when the
original image, the mask, or the trimmed prompt is missing, set the error
message and return (the `false` component: no request is issued); otherwise
enter Loading, clearing error and previous result (the `true` component:
the request proceeds). -/
def handleGenerateStart (s : AppState) : AppState × Bool :=
  if s.originalImage.isSome = false ∨ strTruthy s.maskImage = false ∨ trimStr s.prompt = "" then
    ({ s with error := some "Please upload an image, mask an area, and enter a prompt." }, false)
  else
    ({ s with status := Status.Loading, error := none, generatedImage := none }, true)

/-- The continuation of `handleGenerate` after the awaited call settles:
on success store the result as a PNG data URL and enter Done; on a thrown
error store its message (or the fallback when the message is empty) and
enter Error. -/
def handleGenerateFinish (s : AppState) (outcome : Except String String) : AppState :=
  match outcome with
  | .ok result =>
    { s with generatedImage := some ("data:image/png;base64," ++ result)
             status := Status.Done }
  | .error e =>
    { s with error := some (if e = "" then "An unknown error occurred." else e)
             status := Status.Error }

/-- The render condition of the result image (`generatedImage && status ===
Status.Done`). -/
def displaysGeneratedImage (s : AppState) : Bool :=
  s.generatedImage.isSome && (s.status == Status.Done)

/-- Utility `fileToBase64`, step one: the platform's
`FileReader.readAsDataURL`, producing a base64 data URL from the file's
declared type and content bytes. -/
def readAsDataURL (f : JSFile) : String :=
  "data:" ++ f.type ++ ";base64," ++ String.mk (Web.btoaChunks f.bytes)

/-- Utility `fileToBase64`: read the file as a data URL, split off the
metadata at the first comma, and extract the MIME type between the first
colon and the following semicolon, returning the payload and the MIME
type. -/
def fileToBase64 (file : JSFile) : String × String :=
  let result := readAsDataURL file
  let arr := Web.splitCh ',' result.data
  let meta := arr.getD 0 []
  let data := arr.getD 1 []
  let mimeType := (Web.splitCh ';' ((Web.splitCh ':' meta).getD 1 [])).getD 0 []
  (String.mk data, String.mk mimeType)

/-- Utility `dataURLtoFile`: split at commas, require a /:(.*?);/ match in
the metadata segment (else throw 'Invalid data URL'), base64-decode the
payload with `atob` (a missing payload is the string coercion of
`undefined`; a decode failure is a thrown `InvalidCharacterError`), and
build a `File` from the decoded bytes with the extracted MIME type. -/
def dataURLtoFile (dataurl : String) (filename : String) : Except String JSFile :=
  let arr := Web.splitCh ',' dataurl.data
  match Web.extractMime (arr.getD 0 []) with
  | none => .error "Invalid data URL"
  | some mime =>
    let payload := (arr.get? 1).getD "undefined".data
    match Web.atobChars payload with
    | none => .error "InvalidCharacterError"
    | some bs => .ok { name := filename, type := String.mk mime, bytes := bs }

/-- A concrete application state with all generation inputs present. -/
def sReady : AppState :=
  { status := Status.Masking
    originalImage := some ⟨"room.png", "image/png", [1, 2, 3]⟩
    maskImage := some "data:image/png;base64,AAAA"
    prompt := "navy wall"
    generatedImage := none
    error := none
    brushSize := 40
    clearCanvasCounter := 0 }

/-- The same concrete state with the mask missing. -/
def sNoMask : AppState :=
  { sReady with maskImage := none }

/-- A concrete file exceeding the 4 MB limit by one byte. -/
def bigFile : JSFile :=
  ⟨"big.png", "image/png", List.replicate (4 * 1024 * 1024 + 1) 0⟩

/-- A concrete small file within the size limit. -/
def smallFile : JSFile :=
  ⟨"s.png", "image/png", [1]⟩

/-- A concrete pre-upload state that nevertheless carries all generation
inputs. -/
def sIdleReady : AppState :=
  { sReady with status := Status.Idle }

end App

/-!
Theorems. Each claim of the specification gets one theorem (with a witness
when the statement carries hypotheses); refuted claims additionally get a
closed counterexample.
-/

/-- C2: every invocation of `generateInpaintedImage` issues exactly one
request to the external endpoint (`ai.models.generateContent`) — the single
request it builds, with no retry, batching, or second request — and an error
raised by the call is re-thrown to the caller unchanged. -/
theorem C2_single_request (o m k p : String)
    (api : GeminiService.GenRequest → Except String GeminiService.Response) :
    (GeminiService.generateInpaintedImage o m k p api).2
      = [GeminiService.mkRequest o m k p] ∧
    ∀ e, api (GeminiService.mkRequest o m k p) = .error e →
      (GeminiService.generateInpaintedImage o m k p api).1 = .error e := by
  constructor
  · unfold GeminiService.generateInpaintedImage
    cases h : api (GeminiService.mkRequest o m k p) <;> simp [h]
  · intro e he
    unfold GeminiService.generateInpaintedImage
    simp [he]

/-- Witness for C2 at a concrete call with a failing endpoint. -/
theorem C2_single_request_witness :
    (GeminiService.generateInpaintedImage "o" "image/png" "m" "paint"
      (fun _ => .error "boom")).1 = .error "boom" :=
  (C2_single_request "o" "image/png" "m" "paint" (fun _ => .error "boom")).2 "boom" rfl

/-- C10: every request built by `generateInpaintedImage` frames its parts in
the fixed order [prompt text, original image, mask image], declares the mask
part with MIME type image/png regardless of the original image's MIME type,
and requests IMAGE as the only response modality. -/
theorem C10_request_framing (o m k p : String)
    (api : GeminiService.GenRequest → Except String GeminiService.Response)
    (req : GeminiService.GenRequest)
    (h : req ∈ (GeminiService.generateInpaintedImage o m k p api).2) :
    req.parts = [⟨some p, none⟩, ⟨none, some ⟨m, o⟩⟩, ⟨none, some ⟨"image/png", k⟩⟩] ∧
    req.responseModalities = [GeminiService.Modality.IMAGE] := by
  have hreq : req = GeminiService.mkRequest o m k p := by
    unfold GeminiService.generateInpaintedImage at h
    cases h' : api (GeminiService.mkRequest o m k p) <;> simp [h'] at h <;> exact h
  subst hreq
  exact ⟨rfl, rfl⟩

/-- Witness for C10 at a concrete call with a JPEG original. -/
theorem C10_request_framing_witness :
    (GeminiService.mkRequest "origB64" "image/jpeg" "maskB64" "add a plant").parts
      = [⟨some "add a plant", none⟩, ⟨none, some ⟨"image/jpeg", "origB64"⟩⟩,
         ⟨none, some ⟨"image/png", "maskB64"⟩⟩] ∧
    (GeminiService.mkRequest "origB64" "image/jpeg" "maskB64" "add a plant").responseModalities
      = [GeminiService.Modality.IMAGE] :=
  C10_request_framing "origB64" "image/jpeg" "maskB64" "add a plant"
    (fun _ => .error "e") _ (List.mem_singleton.mpr rfl)

/-- C8: `handleGenerate` invoked with a missing original image, a null or
empty mask, or a blank trimmed prompt issues no request, sets the fixed
error message, and leaves status, originalImage, maskImage, prompt, and
generatedImage unchanged. -/
theorem C8_generate_guard (s : App.AppState)
    (h : s.originalImage = none ∨ s.maskImage = none ∨ s.maskImage = some ""
         ∨ trimStr s.prompt = "") :
    App.handleGenerateStart s =
      ({ s with error := some "Please upload an image, mask an area, and enter a prompt." },
        false) ∧
    (App.handleGenerateStart s).2 = false ∧
    (App.handleGenerateStart s).1.status = s.status ∧
    (App.handleGenerateStart s).1.originalImage = s.originalImage ∧
    (App.handleGenerateStart s).1.maskImage = s.maskImage ∧
    (App.handleGenerateStart s).1.prompt = s.prompt ∧
    (App.handleGenerateStart s).1.generatedImage = s.generatedImage := by
  have hc : s.originalImage.isSome = false ∨ App.strTruthy s.maskImage = false
      ∨ trimStr s.prompt = "" := by
    rcases h with h | h | h | h
    · left; simp [h]
    · right; left; simp [App.strTruthy, h]
    · right; left; simp [App.strTruthy, h]
    · right; right; exact h
  unfold App.handleGenerateStart
  rw [if_pos hc]
  exact ⟨rfl, rfl, rfl, rfl, rfl, rfl, rfl⟩

/-- Witness for C8 at a concrete state with the mask missing. -/
theorem C8_generate_guard_witness :
    App.handleGenerateStart App.sNoMask =
      ({ App.sNoMask with
          error := some "Please upload an image, mask an area, and enter a prompt." },
        false) :=
  (C8_generate_guard App.sNoMask (Or.inr (Or.inl rfl))).1

/-- C9: `handleImageUpload` on a file larger than 4 * 1024 * 1024 bytes sets
the size error message and changes nothing else: originalImage, status,
maskImage, generatedImage, and prompt keep their previous values. -/
theorem C9_size_limit (s : App.AppState) (f : JSFile)
    (h : f.size > 4 * 1024 * 1024) :
    App.handleImageUpload s (some f)
      = { s with error := some "Image size should be less than 4MB." } ∧
    (App.handleImageUpload s (some f)).originalImage = s.originalImage ∧
    (App.handleImageUpload s (some f)).status = s.status ∧
    (App.handleImageUpload s (some f)).maskImage = s.maskImage ∧
    (App.handleImageUpload s (some f)).generatedImage = s.generatedImage ∧
    (App.handleImageUpload s (some f)).prompt = s.prompt := by
  have key : App.handleImageUpload s (some f)
      = { s with error := some "Image size should be less than 4MB." } := by
    unfold App.handleImageUpload
    simp [h]
  refine ⟨key, ?_, ?_, ?_, ?_, ?_⟩ <;> rw [key]

/-- Witness for C9 at a concrete 4 MB + 1 byte file. -/
theorem C9_size_limit_witness :
    App.bigFile.size > 4 * 1024 * 1024 ∧
    App.handleImageUpload App.sReady (some App.bigFile)
      = { App.sReady with error := some "Image size should be less than 4MB." } := by
  have h : App.bigFile.size > 4 * 1024 * 1024 := by
    have hl : App.bigFile.size = 4 * 1024 * 1024 + 1 := by
      simp only [App.bigFile, JSFile.size, List.length_replicate]
    omega
  exact ⟨h, (C9_size_limit App.sReady App.bigFile h).1⟩

/-- C4: the status follows the pipeline: a successful upload moves Idle to
Masking; `handleGenerate` with all inputs present enters Loading and
proceeds to the endpoint; a successful generation enters Done and stores the
result image; a failed one enters Error and stores an error message; and the
generated image is rendered only when the status is Done. -/
theorem C4_pipeline (s : App.AppState) (f : JSFile) (result e : String) :
    (s.status = App.Status.Idle → f.size ≤ 4 * 1024 * 1024 →
      (App.handleImageUpload s (some f)).status = App.Status.Masking) ∧
    (s.originalImage.isSome = true → App.strTruthy s.maskImage = true →
      trimStr s.prompt ≠ "" →
      (App.handleGenerateStart s).1.status = App.Status.Loading ∧
      (App.handleGenerateStart s).2 = true) ∧
    ((App.handleGenerateFinish s (.ok result)).status = App.Status.Done ∧
      (App.handleGenerateFinish s (.ok result)).generatedImage
        = some ("data:image/png;base64," ++ result)) ∧
    ((App.handleGenerateFinish s (.error e)).status = App.Status.Error ∧
      (App.handleGenerateFinish s (.error e)).error.isSome = true) ∧
    (App.displaysGeneratedImage s = true → s.status = App.Status.Done) := by
  refine ⟨?_, ?_, ⟨rfl, rfl⟩, ⟨rfl, rfl⟩, ?_⟩
  · intro _ hf
    have hn : ¬ f.size > 4 * 1024 * 1024 := by omega
    unfold App.handleImageUpload
    simp [hn]
  · intro h1 h2 h3
    unfold App.handleGenerateStart
    rw [if_neg (by simp [h1, h2, h3])]
    exact ⟨rfl, rfl⟩
  · intro h
    unfold App.displaysGeneratedImage at h
    rw [Bool.and_eq_true, beq_iff_eq] at h
    exact h.2

/-- Witness for C4 at a concrete Idle state with all inputs present. -/
theorem C4_pipeline_witness :
    (App.handleImageUpload App.sIdleReady (some App.smallFile)).status
      = App.Status.Masking ∧
    (App.handleGenerateStart App.sIdleReady).1.status = App.Status.Loading := by
  have h := C4_pipeline App.sIdleReady App.smallFile "r" "e"
  exact ⟨h.1 rfl (by decide), (h.2.1 rfl rfl (by decide)).1⟩

/-- C1 as stated is false: `clearCanvas` — triggered by the clear action
with no pointer button held — mutates the stroke-layer pixel buffer.  At the
concrete state `sIdleStroke` (one stroke in the buffer, not drawing), the
clear event empties the buffer. -/
theorem C1_counterexample :
    MaskingCanvas.sIdleStroke.isDrawing = false ∧
    (MaskingCanvas.step 40 "#FFFFFF" MaskingCanvas.sIdleStroke
        MaskingCanvas.Ev.clear).strokes
      ≠ MaskingCanvas.sIdleStroke.strokes := by
  exact ⟨rfl, by decide⟩

/-- C1 (amended): pointer events never mutate the stroke-layer buffer while
no pointer button is held; outside pointer events the buffer is mutated only
by being reset, on the clear action and on re-layout; and on release of the
held pointer button the buffer is left unchanged, serialized to an image
data URL, and reported via `onMaskChange`. -/
theorem C1_mask_mutation (bs : ℚ) (bc : String) (s : MaskingCanvas.CanvasState)
    (p : MaskingCanvas.Pt) (u : String) (iw ih cw ch : ℚ) :
    (s.isDrawing = false →
      (MaskingCanvas.step bs bc s (.mouseDown p)).strokes = s.strokes ∧
      (MaskingCanvas.step bs bc s (.mouseMove p)).strokes = s.strokes ∧
      (MaskingCanvas.step bs bc s .mouseUp).strokes = s.strokes ∧
      (MaskingCanvas.step bs bc s .mouseLeave).strokes = s.strokes) ∧
    (MaskingCanvas.step bs bc s .clear).strokes = [] ∧
    (MaskingCanvas.step bs bc s (.layout u iw ih cw ch)).strokes = [] ∧
    (s.isDrawing = true →
      (MaskingCanvas.step bs bc s .mouseUp).strokes = s.strokes ∧
      (MaskingCanvas.step bs bc s .mouseUp).reported
        = s.reported ++ [MaskingCanvas.toDataURL s.strokes]) := by
  refine ⟨?_, rfl, rfl, ?_⟩
  · intro h
    refine ⟨rfl, ?_, ?_, ?_⟩ <;>
      simp [MaskingCanvas.step, MaskingCanvas.draw, MaskingCanvas.stopDrawing, h]
  · intro h
    constructor <;> simp [MaskingCanvas.step, MaskingCanvas.stopDrawing, h]

/-- Witness for C1 at a concrete mid-stroke state released by mouseup. -/
theorem C1_mask_mutation_witness :
    (MaskingCanvas.step 40 "#FFFFFF" MaskingCanvas.sHeldStroke
        MaskingCanvas.Ev.mouseUp).reported
      = [MaskingCanvas.toDataURL MaskingCanvas.sHeldStroke.strokes] :=
  ((C1_mask_mutation 40 "#FFFFFF" MaskingCanvas.sHeldStroke ⟨0, 0⟩ "u" 1 1 1 1).2.2.2
    rfl).2

/-- C5: the surface is two layers: a stroke event renders exactly one
straight line segment from the last recorded point to the current point,
with round caps and joins and the configured brush size and color, only onto
the drawing canvas; no pointer event paints on the image canvas; and layout
draws the base image only onto the image canvas. -/
theorem C5_two_layers (bs : ℚ) (bc : String) (s : MaskingCanvas.CanvasState)
    (p lp : MaskingCanvas.Pt) (u : String) (iw ih cw ch : ℚ) :
    (s.isDrawing = true → s.lastPoint = some lp →
      (MaskingCanvas.step bs bc s (.mouseMove p)).strokes
        = s.strokes ++ [⟨lp, p, bc, bs, "round", "round"⟩] ∧
      (MaskingCanvas.step bs bc s (.mouseMove p)).imageOps = s.imageOps) ∧
    (MaskingCanvas.step bs bc s (.mouseDown p)).imageOps = s.imageOps ∧
    (MaskingCanvas.step bs bc s (.mouseMove p)).imageOps = s.imageOps ∧
    (MaskingCanvas.step bs bc s .mouseUp).imageOps = s.imageOps ∧
    (MaskingCanvas.step bs bc s .mouseLeave).imageOps = s.imageOps ∧
    (MaskingCanvas.step bs bc s (.layout u iw ih cw ch)).imageOps
      = [⟨u, (MaskingCanvas.fitDims iw ih cw ch).1,
            (MaskingCanvas.fitDims iw ih cw ch).2⟩] := by
  refine ⟨?_, rfl, ?_, ?_, ?_, rfl⟩
  · intro h1 h2
    constructor <;> simp [MaskingCanvas.step, MaskingCanvas.draw, h1, h2]
  · simp only [MaskingCanvas.step, MaskingCanvas.draw]
    split
    · rfl
    · split <;> rfl
  · simp only [MaskingCanvas.step, MaskingCanvas.stopDrawing]
    split <;> rfl
  · simp only [MaskingCanvas.step, MaskingCanvas.stopDrawing]
    split <;> rfl

/-- Witness for C5 at a concrete mid-stroke state moving to (3, 3). -/
theorem C5_two_layers_witness :
    (MaskingCanvas.step 40 "#FFFFFF" MaskingCanvas.sHeldStroke
        (MaskingCanvas.Ev.mouseMove ⟨3, 3⟩)).strokes
      = MaskingCanvas.sHeldStroke.strokes
        ++ [⟨⟨2, 2⟩, ⟨3, 3⟩, "#FFFFFF", 40, "round", "round"⟩] :=
  ((C5_two_layers 40 "#FFFFFF" MaskingCanvas.sHeldStroke ⟨3, 3⟩ ⟨2, 2⟩ "u" 1 1 1 1).1
    rfl rfl).1

/-- Helper: `noImageError` always throws; it is never a returned value. -/
theorem GeminiService.noImageError_ne_ok (r : GeminiService.Response) (out : String) :
    GeminiService.noImageError r ≠ Except.ok out := by
  unfold GeminiService.noImageError
  split
  · split <;> simp
  · simp

/-- C3 as stated is false: on a response whose first candidate's parts hold
a part carrying `inlineData` — with an empty `data` payload — such a part
exists, yet `generateInpaintedImage` throws the fixed message instead of
returning that part's data, because an empty string is falsy in the
source's truthiness test. -/
theorem C3_counterexample :
    (GeminiService.firstImagePart GeminiService.emptyDataResponse).isSome = true ∧
    (GeminiService.generateInpaintedImage "o" "image/png" "m" "p"
        (fun _ => .ok GeminiService.emptyDataResponse)).1
      = .error "Image generation failed: No image data received from the API." :=
  ⟨rfl, rfl⟩

/-- C3 (amended): with the endpoint returning a response, the call returns
the data of the first part carrying `inlineData` in the first candidate's
content parts when that data is non-empty; otherwise it throws an error
whose message includes the model's trimmed text response when that is
non-empty and the fixed no-image message otherwise; and it never returns a
value unless such non-empty inline image data is present. -/
theorem C3_response_mapping (o m k p : String)
    (api : GeminiService.GenRequest → Except String GeminiService.Response)
    (r : GeminiService.Response)
    (hapi : api (GeminiService.mkRequest o m k p) = .ok r) :
    (∀ part d, GeminiService.firstImagePart r = some part → part.inlineData = some d →
      d.data ≠ "" →
      (GeminiService.generateInpaintedImage o m k p api).1 = .ok d.data) ∧
    ((∀ part d, GeminiService.firstImagePart r = some part → part.inlineData = some d →
        d.data = "") →
      (∀ t, r.text = some t → trimStr t ≠ "" →
        (GeminiService.generateInpaintedImage o m k p api).1
          = .error ("Image generation failed. Model response: " ++ trimStr t)) ∧
      ((r.text = none ∨ ∃ t, r.text = some t ∧ trimStr t = "") →
        (GeminiService.generateInpaintedImage o m k p api).1
          = .error "Image generation failed: No image data received from the API.")) ∧
    (∀ out, (GeminiService.generateInpaintedImage o m k p api).1 = .ok out →
      ∃ part d, GeminiService.firstImagePart r = some part ∧ part.inlineData = some d ∧
        d.data = out ∧ out ≠ "") := by
  have hgen : (GeminiService.generateInpaintedImage o m k p api).1
      = GeminiService.processResponse r := by
    unfold GeminiService.generateInpaintedImage
    simp [hapi]
  have herr : ∀ t, r.text = some t → trimStr t ≠ "" →
      GeminiService.noImageError r
        = .error ("Image generation failed. Model response: " ++ trimStr t) := by
    intro t ht htne
    unfold GeminiService.noImageError
    simp [ht, htne]
  have herr2 : (r.text = none ∨ ∃ t, r.text = some t ∧ trimStr t = "") →
      GeminiService.noImageError r
        = .error "Image generation failed: No image data received from the API." := by
    intro hcase
    unfold GeminiService.noImageError
    rcases hcase with h | ⟨t, ht, htz⟩
    · simp [h]
    · simp [ht, htz]
  refine ⟨?_, ?_, ?_⟩
  · intro part d hfp hin hne
    rw [hgen]
    unfold GeminiService.processResponse
    simp [hfp, hin, hne]
  · intro hempty
    have hno : GeminiService.processResponse r = GeminiService.noImageError r := by
      unfold GeminiService.processResponse
      cases hfp : GeminiService.firstImagePart r with
      | none => rfl
      | some part =>
        cases hin : part.inlineData with
        | none => simp [hin]
        | some d => simp [hin, hempty part d hfp hin]
    exact ⟨fun t ht htne => by rw [hgen, hno]; exact herr t ht htne,
           fun hcase => by rw [hgen, hno]; exact herr2 hcase⟩
  · intro out hout
    rw [hgen] at hout
    unfold GeminiService.processResponse at hout
    cases hfp : GeminiService.firstImagePart r with
    | none =>
      rw [hfp] at hout
      exact absurd hout (GeminiService.noImageError_ne_ok r out)
    | some part =>
      rw [hfp] at hout
      cases hin : part.inlineData with
      | none =>
        simp only [hin] at hout
        exact absurd hout (GeminiService.noImageError_ne_ok r out)
      | some d =>
        simp only [hin] at hout
        by_cases hd : d.data = ""
        · rw [if_pos hd] at hout
          exact absurd hout (GeminiService.noImageError_ne_ok r out)
        · rw [if_neg hd] at hout
          have : d.data = out := by
            simpa using hout
          exact ⟨part, d, rfl, hin, this, by rw [← this]; exact hd⟩

/-- Witness for C3 at a concrete response carrying non-empty image data. -/
theorem C3_response_mapping_witness :
    (GeminiService.generateInpaintedImage "o" "image/png" "m" "p"
        (fun _ => .ok GeminiService.goodResponse)).1 = .ok "IMGDATA" :=
  (C3_response_mapping "o" "image/png" "m" "p"
      (fun _ => .ok GeminiService.goodResponse) GeminiService.goodResponse rfl).1
    { text := none, inlineData := some ⟨"image/png", "IMGDATA"⟩ }
    ⟨"image/png", "IMGDATA"⟩ rfl rfl (by decide)

/-- C6: `drawImage` computes display dimensions by the stated formulas —
width is the container width and height is width over the aspect ratio,
unless that height exceeds a positive container height, in which case
height is the container height and width is height times the aspect ratio —
preserving the aspect ratio and fitting the container; both canvases' pixel
buffers are set to exactly these dimensions; and the pointer mapping of
`getCoordinates` is injective and carries the canvas bounding rectangle
exactly onto the pixel-buffer rectangle. -/
theorem C6_layout (imgW imgH cW cH : ℚ)
    (h1 : 0 < imgW) (h2 : 0 < imgH) (h3 : 0 < cW) :
    (MaskingCanvas.fitDims imgW imgH cW cH
      = if cW / (imgW / imgH) > cH ∧ cH > 0
        then (cH * (imgW / imgH), cH)
        else (cW, cW / (imgW / imgH))) ∧
    (MaskingCanvas.fitDims imgW imgH cW cH).1 / (MaskingCanvas.fitDims imgW imgH cW cH).2
      = imgW / imgH ∧
    (MaskingCanvas.fitDims imgW imgH cW cH).1 ≤ cW ∧
    (0 < cH → (MaskingCanvas.fitDims imgW imgH cW cH).2 ≤ cH) ∧
    (∀ s u, ((MaskingCanvas.drawImage u imgW imgH cW cH s).width,
             (MaskingCanvas.drawImage u imgW imgH cW cH s).height)
        = MaskingCanvas.fitDims imgW imgH cW cH) ∧
    (∀ rect : MaskingCanvas.RectT, ∀ x y x' y' : ℚ,
      MaskingCanvas.getCoordinates rect x y = MaskingCanvas.getCoordinates rect x' y' →
      x = x' ∧ y = y') ∧
    (∀ rect : MaskingCanvas.RectT,
      rect.width = (MaskingCanvas.fitDims imgW imgH cW cH).1 →
      rect.height = (MaskingCanvas.fitDims imgW imgH cW cH).2 →
      ∀ x y : ℚ,
        (rect.left ≤ x ∧ x ≤ rect.left + rect.width ∧
         rect.top ≤ y ∧ y ≤ rect.top + rect.height) ↔
        (0 ≤ (MaskingCanvas.getCoordinates rect x y).x ∧
         (MaskingCanvas.getCoordinates rect x y).x
           ≤ (MaskingCanvas.fitDims imgW imgH cW cH).1 ∧
         0 ≤ (MaskingCanvas.getCoordinates rect x y).y ∧
         (MaskingCanvas.getCoordinates rect x y).y
           ≤ (MaskingCanvas.fitDims imgW imgH cW cH).2)) := by
  have har : 0 < imgW / imgH := div_pos h1 h2
  refine ⟨rfl, ?_, ?_, ?_, fun s u => rfl, ?_, ?_⟩
  · simp only [MaskingCanvas.fitDims]
    by_cases hc : cW / (imgW / imgH) > cH ∧ cH > 0
    · rw [if_pos hc]
      exact mul_div_cancel_left₀ _ (ne_of_gt hc.2)
    · rw [if_neg hc]
      rw [div_div_eq_mul_div]
      exact mul_div_cancel_left₀ _ (ne_of_gt h3)
  · simp only [MaskingCanvas.fitDims]
    by_cases hc : cW / (imgW / imgH) > cH ∧ cH > 0
    · rw [if_pos hc]
      exact le_of_lt ((lt_div_iff₀ har).mp hc.1)
    · rw [if_neg hc]
  · intro hch
    simp only [MaskingCanvas.fitDims]
    by_cases hc : cW / (imgW / imgH) > cH ∧ cH > 0
    · rw [if_pos hc]
    · rw [if_neg hc]
      rcases not_and_or.mp hc with h | h
      · exact not_lt.mp h
      · exact absurd hch h
  · intro rect x y x' y' h
    have hx := congrArg MaskingCanvas.Pt.x h
    have hy := congrArg MaskingCanvas.Pt.y h
    simp only [MaskingCanvas.getCoordinates] at hx hy
    constructor <;> linarith
  · intro rect hw hh x y
    rw [← hw, ← hh]
    simp only [MaskingCanvas.getCoordinates]
    constructor
    · rintro ⟨a, b, c, d⟩
      exact ⟨by linarith, by linarith, by linarith, by linarith⟩
    · rintro ⟨a, b, c, d⟩
      exact ⟨by linarith, by linarith, by linarith, by linarith⟩

/-- Witness for C6 at a 4:3 image in a 2-wide, 1-high container. -/
theorem C6_layout_witness :
    (MaskingCanvas.fitDims 4 3 2 1).1 / (MaskingCanvas.fitDims 4 3 2 1).2 = 4 / 3 ∧
    (MaskingCanvas.fitDims 4 3 2 1).1 ≤ 2 :=
  ⟨(C6_layout 4 3 2 1 (by decide) (by decide) (by decide)).2.1,
   (C6_layout 4 3 2 1 (by decide) (by decide) (by decide)).2.2.1⟩

/-- Helper: decoding inverts encoding on six-bit values. -/
theorem Web.decChar_encChar : ∀ n, n < 64 → Web.decChar (Web.encChar n) = some n := by
  decide

/-- Helper: a Boolean predicate holding on the alphabet range and on the
out-of-range default holds on every encoded character. -/
theorem Web.encChar_pred (p : Char → Bool)
    (hsmall : ∀ n, n < 64 → p (Web.encChar n) = true) (hdef : p '?' = true)
    (n : Nat) : p (Web.encChar n) = true := by
  by_cases h : n < 64
  · exact hsmall n h
  · have hlen : Web.b64Alphabet.length = 64 := rfl
    unfold Web.encChar
    rw [List.getD_eq_default _ _ (by omega)]
    exact hdef

/-- Helper: a pointwise predicate transported to every character of the
padded encoder output. -/
theorem Web.btoaChunks_pred (p : Char → Bool)
    (hsmall : ∀ n, n < 64 → p (Web.encChar n) = true) (hdef : p '?' = true)
    (hpad : p '=' = true) :
    ∀ bs : List Nat, ∀ c ∈ Web.btoaChunks bs, p c = true
  | [] => by simp [Web.btoaChunks]
  | [a] => by
    intro c hc
    simp only [Web.btoaChunks, List.mem_cons, List.not_mem_nil, or_false] at hc
    rcases hc with rfl | rfl | rfl | rfl
    · exact Web.encChar_pred p hsmall hdef _
    · exact Web.encChar_pred p hsmall hdef _
    · exact hpad
    · exact hpad
  | [a, b] => by
    intro c hc
    simp only [Web.btoaChunks, List.mem_cons, List.not_mem_nil, or_false] at hc
    rcases hc with rfl | rfl | rfl | rfl
    · exact Web.encChar_pred p hsmall hdef _
    · exact Web.encChar_pred p hsmall hdef _
    · exact Web.encChar_pred p hsmall hdef _
    · exact hpad
  | a :: b :: d :: rest => by
    intro c hc
    simp only [Web.btoaChunks, List.mem_cons] at hc
    rcases hc with rfl | rfl | rfl | rfl | hc
    · exact Web.encChar_pred p hsmall hdef _
    · exact Web.encChar_pred p hsmall hdef _
    · exact Web.encChar_pred p hsmall hdef _
    · exact Web.encChar_pred p hsmall hdef _
    · exact Web.btoaChunks_pred p hsmall hdef hpad rest c hc

/-- Helper: the same transport for the padding-free encoder output. -/
theorem Web.btoaRawChunks_pred (p : Char → Bool)
    (hsmall : ∀ n, n < 64 → p (Web.encChar n) = true) (hdef : p '?' = true) :
    ∀ bs : List Nat, ∀ c ∈ Web.btoaRawChunks bs, p c = true
  | [] => by simp [Web.btoaRawChunks]
  | [a] => by
    intro c hc
    simp only [Web.btoaRawChunks, List.mem_cons, List.not_mem_nil, or_false] at hc
    rcases hc with rfl | rfl
    · exact Web.encChar_pred p hsmall hdef _
    · exact Web.encChar_pred p hsmall hdef _
  | [a, b] => by
    intro c hc
    simp only [Web.btoaRawChunks, List.mem_cons, List.not_mem_nil, or_false] at hc
    rcases hc with rfl | rfl | rfl
    · exact Web.encChar_pred p hsmall hdef _
    · exact Web.encChar_pred p hsmall hdef _
    · exact Web.encChar_pred p hsmall hdef _
  | a :: b :: d :: rest => by
    intro c hc
    simp only [Web.btoaRawChunks, List.mem_cons] at hc
    rcases hc with rfl | rfl | rfl | rfl | hc
    · exact Web.encChar_pred p hsmall hdef _
    · exact Web.encChar_pred p hsmall hdef _
    · exact Web.encChar_pred p hsmall hdef _
    · exact Web.encChar_pred p hsmall hdef _
    · exact Web.btoaRawChunks_pred p hsmall hdef rest c hc

/-- Helper: the encoder output contains no ASCII whitespace. -/
theorem Web.btoaChunks_no_ws (bs : List Nat) :
    ∀ c ∈ Web.btoaChunks bs, Web.isB64Ws c = false := by
  intro c hc
  have := Web.btoaChunks_pred (fun c => !Web.isB64Ws c) (by decide) (by decide)
    (by decide) bs c hc
  simpa using this

/-- Helper: the encoder output contains no comma. -/
theorem Web.btoaChunks_ne_comma (bs : List Nat) :
    ∀ c ∈ Web.btoaChunks bs, c ≠ ',' := by
  intro c hc
  have := Web.btoaChunks_pred (fun c => !(c == ',')) (by decide) (by decide)
    (by decide) bs c hc
  simpa using this

/-- Helper: the padding-free encoder output contains no padding character. -/
theorem Web.btoaRawChunks_ne_eq (bs : List Nat) :
    ∀ c ∈ Web.btoaRawChunks bs, c ≠ '=' := by
  intro c hc
  have := Web.btoaRawChunks_pred (fun c => !(c == '=')) (by decide) (by decide) bs c hc
  simpa using this

/-- Helper: whitespace filtering is the identity on encoder output. -/
theorem Web.filter_btoaChunks (bs : List Nat) :
    (Web.btoaChunks bs).filter (fun c => !Web.isB64Ws c) = Web.btoaChunks bs :=
  List.filter_eq_self.mpr (fun c hc => by simp [Web.btoaChunks_no_ws bs c hc])

/-- Helper: the padded encoder output length is a multiple of four. -/
theorem Web.btoaChunks_length_mod : ∀ bs : List Nat, (Web.btoaChunks bs).length % 4 = 0
  | [] => rfl
  | [a] => by simp [Web.btoaChunks]
  | [a, b] => by simp [Web.btoaChunks]
  | a :: b :: d :: rest => by
    have ih := Web.btoaChunks_length_mod rest
    simp only [Web.btoaChunks, List.length_cons]
    omega

/-- Helper: the padded encoder output is the padding-free output followed by
the padding determined by the byte count modulo three. -/
theorem Web.btoaChunks_eq : ∀ bs : List Nat,
    Web.btoaChunks bs = Web.btoaRawChunks bs ++ Web.padOf bs
  | [] => rfl
  | [a] => rfl
  | [a, b] => rfl
  | a :: b :: d :: rest => by
    have ih := Web.btoaChunks_eq rest
    have hpad : Web.padOf (a :: b :: d :: rest) = Web.padOf rest := by
      unfold Web.padOf
      have h3 : (a :: b :: d :: rest).length % 3 = rest.length % 3 := by
        simp only [List.length_cons]
        omega
      rw [h3]
    simp only [Web.btoaChunks, Web.btoaRawChunks, hpad, ih, List.cons_append]

/-- Helper: removal of two trailing padding characters. -/
theorem Web.dropPad_append_two (x : List Char) : Web.dropPad (x ++ ['=', '=']) = x := by
  unfold Web.dropPad
  rw [show (x ++ ['=', '=']).reverse = '=' :: '=' :: x.reverse by simp]
  simp

/-- Helper: removal of one trailing padding character from a padding-free
prefix. -/
theorem Web.dropPad_append_one (x : List Char) (hx : ∀ c ∈ x, c ≠ '=') :
    Web.dropPad (x ++ ['=']) = x := by
  unfold Web.dropPad
  rw [show (x ++ ['=']).reverse = '=' :: x.reverse by simp]
  cases hrev : x.reverse with
  | nil =>
    have hxe : x = [] := by simpa using congrArg List.reverse hrev
    subst hxe
    simp
  | cons c t =>
    have hc : c ≠ '=' := hx c (by rw [← List.mem_reverse, hrev]; simp)
    have hx2 : x = t.reverse ++ [c] := by simpa using congrArg List.reverse hrev
    simp [hc, hx2]

/-- Helper: a padding-free list is left unchanged. -/
theorem Web.dropPad_no_eq (x : List Char) (hx : ∀ c ∈ x, c ≠ '=') :
    Web.dropPad x = x := by
  unfold Web.dropPad
  cases hrev : x.reverse with
  | nil => rfl
  | cons c t =>
    have hc : c ≠ '=' := hx c (by rw [← List.mem_reverse, hrev]; simp)
    cases t with
    | nil => simp [hc]
    | cons b t2 => simp [hc]

/-- Helper: stripping the padding recovers the padding-free encoding. -/
theorem Web.dropPad_raw_pad (bs : List Nat) :
    Web.dropPad (Web.btoaRawChunks bs ++ Web.padOf bs) = Web.btoaRawChunks bs := by
  have hne : ∀ c ∈ Web.btoaRawChunks bs, c ≠ '=' := Web.btoaRawChunks_ne_eq bs
  unfold Web.padOf
  split
  · rw [List.append_nil]
    exact Web.dropPad_no_eq _ hne
  · exact Web.dropPad_append_two _
  · exact Web.dropPad_append_one _ hne

/-- Helper: the forgiving decoder core inverts the padding-free encoder on
byte lists. -/
theorem Web.atobCore_btoaRaw : ∀ bs : List Nat, (∀ x ∈ bs, x < 256) →
    Web.atobCore (Web.btoaRawChunks bs) = some bs
  | [], _ => rfl
  | [a], h => by
    have ha : a < 256 := h a (by simp)
    have e1 := Web.decChar_encChar (a / 4) (by omega)
    have e2 := Web.decChar_encChar (a % 4 * 16) (by omega)
    simp [Web.btoaRawChunks, Web.atobCore, e1, e2]
    omega
  | [a, b], h => by
    have ha : a < 256 := h a (by simp)
    have hb : b < 256 := h b (by simp)
    have e1 := Web.decChar_encChar (a / 4) (by omega)
    have e2 := Web.decChar_encChar (a % 4 * 16 + b / 16) (by omega)
    have e3 := Web.decChar_encChar (b % 16 * 4) (by omega)
    simp [Web.btoaRawChunks, Web.atobCore, e1, e2, e3]
    omega
  | a :: b :: d :: rest, h => by
    have ha : a < 256 := h a (by simp)
    have hb : b < 256 := h b (by simp)
    have hd : d < 256 := h d (by simp)
    have ih := Web.atobCore_btoaRaw rest (fun x hx => h x (by simp [hx]))
    have e1 := Web.decChar_encChar (a / 4) (by omega)
    have e2 := Web.decChar_encChar (a % 4 * 16 + b / 16) (by omega)
    have e3 := Web.decChar_encChar (b % 16 * 4 + d / 64) (by omega)
    have e4 := Web.decChar_encChar (d % 64) (by omega)
    simp [Web.btoaRawChunks, Web.atobCore, e1, e2, e3, e4, ih]
    omega

/-- Helper: `atob` inverts `btoa` on byte lists (the canonical round trip). -/
theorem Web.atob_btoa (bs : List Nat) (h : ∀ x ∈ bs, x < 256) :
    Web.atobChars (Web.btoaChunks bs) = some bs := by
  simp only [Web.atobChars]
  rw [Web.filter_btoaChunks, if_pos (Web.btoaChunks_length_mod bs),
     Web.btoaChunks_eq, Web.dropPad_raw_pad]
  exact Web.atobCore_btoaRaw bs h

/-- Helper: splitting a list free of the separator yields that single
group. -/
theorem Web.splitCh_not_mem (c : Char) : ∀ l : List Char, c ∉ l →
    Web.splitCh c l = [l]
  | [], _ => rfl
  | a :: rest, h => by
    have ha : ¬ a = c := fun hh => h (by simp [hh])
    have ih := Web.splitCh_not_mem c rest (fun hc => h (List.mem_cons_of_mem a hc))
    simp [Web.splitCh, ha, ih]

/-- Helper: splitting at the first separator occurrence. -/
theorem Web.splitCh_append (c : Char) : ∀ l1 rest : List Char, c ∉ l1 →
    Web.splitCh c (l1 ++ c :: rest) = l1 :: Web.splitCh c rest
  | [], rest, _ => by simp [Web.splitCh]
  | a :: l1, rest, h => by
    have ha : ¬ a = c := fun hh => h (by simp [hh])
    have ih := Web.splitCh_append c l1 rest (fun hc => h (List.mem_cons_of_mem a hc))
    simp [Web.splitCh, ha, ih]

/-- Helper: taking up to the first separator occurrence. -/
theorem Web.takeUntil_append (c : Char) : ∀ l1 rest : List Char, c ∉ l1 →
    Web.takeUntil c (l1 ++ c :: rest) = some l1
  | [], rest, _ => by simp [Web.takeUntil]
  | a :: l1, rest, h => by
    have ha : ¬ a = c := fun hh => h (by simp [hh])
    have ih := Web.takeUntil_append c l1 rest (fun hc => h (List.mem_cons_of_mem a hc))
    simp [Web.takeUntil, ha, ih]

/-- Helper: the MIME extraction past a colon-free prefix. -/
theorem Web.extractMime_append (l1 rest : List Char) (h : ':' ∉ l1) :
    Web.extractMime (l1 ++ ':' :: rest) = Web.takeUntil ';' rest := by
  induction l1 with
  | nil => simp [Web.extractMime]
  | cons a l1 ih =>
    have ha : ¬ a = ':' := fun hh => h (by simp [hh])
    simp [Web.extractMime, ha, ih (fun hc => h (List.mem_cons_of_mem a hc))]

/-- C7 as stated is false: the round trip restores only canonical base64
payloads.  The payload QR== is accepted by the forgiving `atob` (its
leftover four bits are discarded, giving the single byte 65), but reading
the resulting file back yields the canonical QQ==, not the original
payload. -/
theorem C7_counterexample :
    App.dataURLtoFile "data:image/png;base64,QR==" "edited-image.png"
      = .ok ⟨"edited-image.png", "image/png", [65]⟩ ∧
    App.fileToBase64 ⟨"edited-image.png", "image/png", [65]⟩
      = ("QQ==", "image/png") ∧
    ("QQ==" : String) ≠ "QR==" := by
  refine ⟨rfl, rfl, by decide⟩

/-- C7 (amended): for every data URL `data:mime;base64,payload` whose MIME
type contains no colon, semicolon or comma and whose payload is canonical
base64 (the encoding of a byte list), `dataURLtoFile` produces a File with
that MIME type whose bytes are the base64 decoding of the payload, and
`fileToBase64` on that File returns exactly the payload and the MIME type;
and `dataURLtoFile` throws 'Invalid data URL' whenever the metadata segment
contains no colon-to-semicolon pattern. -/
theorem C7_roundtrip (mime fn : String) (bs : List Nat)
    (hm : ∀ c ∈ mime.data, c ≠ ':' ∧ c ≠ ';' ∧ c ≠ ',')
    (hb : ∀ x ∈ bs, x < 256) :
    App.dataURLtoFile ("data:" ++ mime ++ ";base64," ++ String.mk (Web.btoaChunks bs)) fn
      = .ok ⟨fn, mime, bs⟩ ∧
    App.fileToBase64 ⟨fn, mime, bs⟩ = (String.mk (Web.btoaChunks bs), mime) ∧
    (∀ url fn2, Web.extractMime ((Web.splitCh ',' url.data).getD 0 []) = none →
      App.dataURLtoFile url fn2 = .error "Invalid data URL") := by
  have hmc : ',' ∉ mime.data := fun hc => ((hm ',' hc).2.2) rfl
  have hms : ';' ∉ mime.data := fun hc => ((hm ';' hc).2.1) rfl
  have hmcol : ':' ∉ mime.data := fun hc => ((hm ':' hc).1) rfl
  have hpc : ',' ∉ Web.btoaChunks bs := fun hc => Web.btoaChunks_ne_comma bs ',' hc rfl
  have hmetac : ',' ∉ ("data:".data ++ mime.data ++ ";base64".data) := by
    intro hc
    simp only [List.mem_append] at hc
    rcases hc with (hc | hc) | hc
    · revert hc; decide
    · exact hmc hc
    · revert hc; decide
  have hmkdata : (String.mk (Web.btoaChunks bs)).data = Web.btoaChunks bs := rfl
  have hurl : ("data:" ++ mime ++ ";base64," ++ String.mk (Web.btoaChunks bs)).data
      = ("data:".data ++ mime.data ++ ";base64".data) ++ ',' :: Web.btoaChunks bs := by
    rw [String.data_append, String.data_append, String.data_append, hmkdata]
    rw [show (";base64,").data = (";base64").data ++ [','] from rfl]
    simp [List.append_assoc]
  have hsplit : Web.splitCh ','
        ("data:" ++ mime ++ ";base64," ++ String.mk (Web.btoaChunks bs)).data
      = [("data:".data ++ mime.data ++ ";base64".data), Web.btoaChunks bs] := by
    rw [hurl, Web.splitCh_append ',' _ _ hmetac, Web.splitCh_not_mem ',' _ hpc]
  have hmeta : Web.extractMime ("data:".data ++ mime.data ++ ";base64".data)
      = some mime.data := by
    have hshape : "data:".data ++ mime.data ++ ";base64".data
        = "data".data ++ ':' :: (mime.data ++ ';' :: "base64".data) := by
      rw [show ("data:").data = ("data").data ++ [':'] from rfl,
          show (";base64").data = ';' :: ("base64").data from rfl]
      simp [List.append_assoc]
    rw [hshape, Web.extractMime_append _ _ (by decide),
        Web.takeUntil_append ';' _ _ hms]
  have hat : Web.atobChars (Web.btoaChunks bs) = some bs := Web.atob_btoa bs hb
  refine ⟨?_, ?_, ?_⟩
  · simp only [App.dataURLtoFile, hsplit, List.getD]
    simp only [List.get?, Option.getD_some]
    simp only [hmeta, hat]
  · have hcolrest : ':' ∉ (mime.data ++ ";base64".data) := by
      intro hc
      rcases List.mem_append.mp hc with hc | hc
      · exact hmcol hc
      · revert hc; decide
    have hsplitcolon : Web.splitCh ':' ("data:".data ++ mime.data ++ ";base64".data)
        = ["data".data, mime.data ++ ";base64".data] := by
      have hshape2 : "data:".data ++ mime.data ++ ";base64".data
          = "data".data ++ ':' :: (mime.data ++ ";base64".data) := by
        rw [show ("data:").data = ("data").data ++ [':'] from rfl]
        simp [List.append_assoc]
      rw [hshape2, Web.splitCh_append ':' _ _ (by decide),
          Web.splitCh_not_mem ':' _ hcolrest]
    have hsplitsemi : Web.splitCh ';' (mime.data ++ ";base64".data)
        = [mime.data, "base64".data] := by
      rw [show (";base64").data = ';' :: ("base64").data from rfl,
          Web.splitCh_append ';' _ _ hms, Web.splitCh_not_mem ';' _ (by decide)]
    simp only [App.fileToBase64, App.readAsDataURL]
    simp only [hsplit, hsplitcolon, hsplitsemi, List.getD]
    simp only [List.get?, Option.getD_some]
    have hx1 : Web.splitCh ':' (mime.data ++ [';', 'b', 'a', 's', 'e', '6', '4'])
        = [mime.data ++ [';', 'b', 'a', 's', 'e', '6', '4']] :=
      Web.splitCh_not_mem ':' _ (by
        intro hc
        rcases List.mem_append.mp hc with hc | hc
        · exact hmcol hc
        · revert hc; decide)
    have hx2 : Web.splitCh ';' (mime.data ++ ';' :: ['b', 'a', 's', 'e', '6', '4'])
        = mime.data :: Web.splitCh ';' ['b', 'a', 's', 'e', '6', '4'] :=
      Web.splitCh_append ';' _ _ hms
    simp [hx1, hx2, Web.splitCh]
  · intro url fn2 hnone
    simp only [App.dataURLtoFile, hnone]

/-- Witness for C7 at the MIME type image/png and the bytes of "Hel". -/
theorem C7_roundtrip_witness :
    App.dataURLtoFile ("data:" ++ "image/png" ++ ";base64,"
        ++ String.mk (Web.btoaChunks [72, 101, 108])) "f.png"
      = .ok ⟨"f.png", "image/png", [72, 101, 108]⟩ :=
  (C7_roundtrip "image/png" "f.png" [72, 101, 108] (by decide) (by decide)).1
